import Mathlib

/-!
Verification of the LinGlide streaming core against its specification.

The Rust sources are shallowly embedded: pure functions become Lean
functions, stateful methods become explicit state passing, machine
integers become Nat/Int with explicit wrapping where it matters, and
fallible code returns Option/Except.  Wall-clock instants are modelled
as integers on an abstract timeline; fresh UUIDs and random tokens are
passed in as parameters since the embedding is deterministic.
-/

namespace LinGlide

/-! ## Pairing and auth core (crates/linglide-auth) -/

/-- Mirrors `DeviceType` from linglide-auth/src/device.rs. -/
inductive DeviceType where
  | ios
  | android
  | browser
  | unknown
deriving DecidableEq, Repr

/-- Mirrors `DeviceType::from_str` (device.rs): lowercases and matches; never fails. -/
def parseDeviceType (s : String) : DeviceType :=
  match s.toLower with
  | "ios" => .ios
  | "iphone" => .ios
  | "ipad" => .ios
  | "android" => .android
  | "browser" => .browser
  | "web" => .browser
  | _ => .unknown

/-- Mirrors the `device_type` resolution in `PairingManager::verify_pin`:
`request.device_type.as_deref().and_then(parse.ok).unwrap_or(Unknown)`. -/
def deviceTypeOf (o : Option String) : DeviceType :=
  match o with
  | some s => parseDeviceType s
  | none => .unknown

/-- Mirrors `Device` (device.rs).  The 128-bit UUID id is modelled by its
string form; `DateTime<Utc>` instants are integers on an abstract timeline. -/
structure Device where
  id : String
  name : String
  deviceType : DeviceType
  pairedAt : Int
  lastSeen : Int
  tokenHash : String
deriving DecidableEq, Repr

/-- Mirrors `PairingSession` (pairing.rs). -/
structure PairingSession where
  sessionId : String
  pin : String
  expiresAt : Int
deriving DecidableEq, Repr

/-- Mirrors `PairingSession::is_expired`: `Utc::now() > self.expires_at`,
with the current instant passed in explicitly. -/
def PairingSession.isExpiredAt (s : PairingSession) (now : Int) : Bool :=
  now > s.expiresAt

/-- Mirrors `PairingSession::verify_pin`: `!self.is_expired() && self.pin == pin`. -/
def PairingSession.verifyPinAt (s : PairingSession) (now : Int) (pin : String) : Bool :=
  !(s.isExpiredAt now) && s.pin == pin

/-- Mirrors `PairingError` (pairing.rs). -/
inductive PairingError where
  | invalidPin
  | sessionNotFound
  | invalidToken
  | storage
deriving DecidableEq, Repr

/-- Mirrors `PairingVerifyRequest` (pairing.rs). -/
structure PairingVerifyRequest where
  sessionId : String
  pin : String
  deviceName : String
  deviceType : Option String
deriving DecidableEq, Repr

/-- Mirrors `PairingVerifyResponse` (pairing.rs). -/
structure PairingVerifyResponse where
  deviceId : String
  token : String
deriving DecidableEq, Repr

/-- Combined in-memory state of `PairingManager` and `DeviceStorage`:
the session map and the device map (both `HashMap` in Rust) are modelled
as association lists keyed by the id string. -/
structure AuthState where
  sessions : List (String × PairingSession)
  devices : List (String × Device)
deriving DecidableEq, Repr

/-- Mirrors `HashMap::insert` on the device table (`DeviceStorage::save_device`):
replace the value if the key is present, otherwise add the entry. -/
def insertDevice (l : List (String × Device)) (k : String) (v : Device) :
    List (String × Device) :=
  if l.any (fun p => p.1 == k) then
    l.map (fun p => if p.1 == k then (k, v) else p)
  else
    l ++ [(k, v)]

/-- Mirrors `DeviceStorage::get_device_by_token_hash`:
`data.devices.values().find(|d| d.token_hash == token_hash)`. -/
def getDeviceByTokenHash (devices : List (String × Device)) (h : String) :
    Option Device :=
  (devices.find? (fun p => p.2.tokenHash == h)).map (fun p => p.2)

/-- Mirrors `PairingManager::verify_pin` (pairing.rs lines 187-230).
`hashToken` abstracts `hash_token` (base64 of the SHA-256 of the UTF-8
bytes of the token; the only property the control flow uses is that it is
a deterministic function).  `now` is the clock reading, `freshToken` the
32-byte random token in its base64 wire form (`generate_token`), and
`freshId` the fresh device UUID (`DeviceId::new`).  Returns the new state
together with the result; the error paths of the source return before any
mutation, so they carry the input state unchanged. -/
def verifyPin (hashToken : String → String) (now : Int)
    (freshToken freshId : String) (st : AuthState)
    (req : PairingVerifyRequest) :
    AuthState × Except PairingError PairingVerifyResponse :=
  match (st.sessions.find? (fun p => p.1 == req.sessionId)).map (fun p => p.2) with
  | none => (st, .error .sessionNotFound)
  | some session =>
    if !(session.verifyPinAt now req.pin) then
      (st, .error .invalidPin)
    else
      let tokenHash := hashToken freshToken
      let dtype := deviceTypeOf req.deviceType
      let device : Device := ⟨freshId, req.deviceName, dtype, now, now, tokenHash⟩
      let devices := insertDevice st.devices freshId device
      let sessions := st.sessions.filter (fun p => !(p.1 == req.sessionId))
      (⟨sessions, devices⟩, .ok ⟨freshId, freshToken⟩)

/-- Mirrors `PairingManager::validate_token` (pairing.rs lines 256-262). -/
def validateToken (hashToken : String → String) (st : AuthState)
    (token : String) : Except PairingError Device :=
  match getDeviceByTokenHash st.devices (hashToken token) with
  | some d => .ok d
  | none => .error .invalidToken

/-! ## fMP4 muxer (crates/linglide-encoder/src/fmp4.rs)

Byte output is modelled as `List Nat` (one entry per byte).  `put_u16`,
`put_u32` and `put_u64` are big-endian and wrap at the machine width;
the helpers below take a `Nat` and reduce every emitted byte modulo 256,
which yields exactly the wrapped big-endian bytes. -/

/-- Big-endian `put_u16`. -/
def be16 (n : Nat) : List Nat := [n / 256 % 256, n % 256]

/-- Big-endian `put_u32`. -/
def be32 (n : Nat) : List Nat :=
  [n / 16777216 % 256, n / 65536 % 256, n / 256 % 256, n % 256]

/-- Big-endian `put_u64`. -/
def be64 (n : Nat) : List Nat :=
  [n / 72057594037927936 % 256, n / 281474976710656 % 256, n / 1099511627776 % 256,
   n / 4294967296 % 256, n / 16777216 % 256, n / 65536 % 256, n / 256 % 256, n % 256]

/-- Bytes of an ASCII string literal such as a box fourcc (`put_slice(b"...")`). -/
def ascii (s : String) : List Nat := s.toList.map (fun c => c.toNat)

/-- Mirrors `EncodedFrame` (encoder.rs).  `pts` comes from the frame counter
and is never negative, so it is a `Nat` here. -/
structure EncodedFrame where
  data : List Nat
  pts : Nat
  isKeyframe : Bool
deriving DecidableEq, Repr

/-- Mirrors the `Fmp4Muxer` struct (fmp4.rs). -/
structure Fmp4Muxer where
  width : Nat
  height : Nat
  timescale : Nat
  sequenceNumber : Nat
  sps : List Nat
  pps : List Nat
deriving DecidableEq, Repr

/-- Mirrors `Fmp4Muxer::new`: timescale fps*1000, sequence number 1,
empty SPS and PPS. -/
def Fmp4Muxer.new (width height fps : Nat) : Fmp4Muxer :=
  ⟨width, height, fps * 1000, 1, [], []⟩

/-- Mirrors `Fmp4Muxer::write_box`: 4-byte size (8 + content), fourcc, content. -/
def writeBox (ty : List Nat) (content : List Nat) : List Nat :=
  be32 (8 + content.length) ++ ty ++ content

/-- The identity transformation matrix written inline by `write_mvhd`
and `write_tkhd`. -/
def identityMatrix : List Nat :=
  be32 65536 ++ be32 0 ++ be32 0 ++ be32 0 ++ be32 65536 ++ be32 0 ++
    be32 0 ++ be32 0 ++ be32 1073741824

/-- Mirrors `write_ftyp`: major brand isom, minor version 0x200,
compatible brands isom iso2 avc1 mp41. -/
def writeFtyp : List Nat :=
  writeBox (ascii "ftyp") (ascii "isom" ++ be32 512 ++ ascii "isomiso2avc1mp41")

/-- Mirrors `write_mvhd`. -/
def writeMvhd (m : Fmp4Muxer) : List Nat :=
  writeBox (ascii "mvhd")
    ([0] ++ [0, 0, 0] ++ be32 0 ++ be32 0 ++ be32 m.timescale ++ be32 0 ++
      be32 65536 ++ be16 256 ++ be16 0 ++ be64 0 ++ identityMatrix ++
      be32 0 ++ be32 0 ++ be32 0 ++ be32 0 ++ be32 0 ++ be32 0 ++ be32 2)

/-- Mirrors `write_tkhd`; `width << 16` wraps at 32 bits, which `be32`
already accounts for. -/
def writeTkhd (m : Fmp4Muxer) : List Nat :=
  writeBox (ascii "tkhd")
    ([0] ++ [0, 0, 3] ++ be32 0 ++ be32 0 ++ be32 1 ++ be32 0 ++ be32 0 ++
      be64 0 ++ be16 0 ++ be16 0 ++ be16 0 ++ be16 0 ++ identityMatrix ++
      be32 (m.width * 65536) ++ be32 (m.height * 65536))

/-- Mirrors `write_mdhd` (language 0x55C4). -/
def writeMdhd (m : Fmp4Muxer) : List Nat :=
  writeBox (ascii "mdhd")
    ([0] ++ [0, 0, 0] ++ be32 0 ++ be32 0 ++ be32 m.timescale ++ be32 0 ++
      be16 21956 ++ be16 0)

/-- Mirrors `write_hdlr` (handler vide, name VideoHandler with NUL). -/
def writeHdlr : List Nat :=
  writeBox (ascii "hdlr")
    ([0] ++ [0, 0, 0] ++ be32 0 ++ ascii "vide" ++ be32 0 ++ be32 0 ++ be32 0 ++
      (ascii "VideoHandler" ++ [0]))

/-- Mirrors `write_vmhd`. -/
def writeVmhd : List Nat :=
  writeBox (ascii "vmhd") ([0] ++ [0, 0, 1] ++ be16 0 ++ be16 0 ++ be16 0 ++ be16 0)

/-- Mirrors the url entry inside `write_dref` (self-contained flag). -/
def writeUrl : List Nat := writeBox (ascii "url ") ([0] ++ [0, 0, 1])

/-- Mirrors `write_dref`. -/
def writeDref : List Nat :=
  writeBox (ascii "dref") ([0] ++ [0, 0, 0] ++ be32 1 ++ writeUrl)

/-- Mirrors `write_dinf`. -/
def writeDinf : List Nat := writeBox (ascii "dinf") writeDref

/-- Mirrors `write_avcc` (the moov copy; fallback profile 0x64, compat 0x00,
level 0x1F when the SPS is short). -/
def writeAvcc (m : Fmp4Muxer) : List Nat :=
  writeBox (ascii "avcC")
    ([1] ++ [if m.sps.length > 1 then m.sps.getD 1 0 else 100] ++
      [if m.sps.length > 2 then m.sps.getD 2 0 else 0] ++
      [if m.sps.length > 3 then m.sps.getD 3 0 else 31] ++
      [255] ++ [225] ++ be16 m.sps.length ++ m.sps ++ [1] ++
      be16 m.pps.length ++ m.pps)

/-- Mirrors `write_avc1` (`put_i16(-1)` emits the bytes 0xFF 0xFF). -/
def writeAvc1 (m : Fmp4Muxer) : List Nat :=
  writeBox (ascii "avc1")
    (List.replicate 6 0 ++ be16 1 ++ be16 0 ++ be16 0 ++ be32 0 ++ be32 0 ++
      be32 0 ++ be16 m.width ++ be16 m.height ++ be32 4718592 ++ be32 4718592 ++
      be32 0 ++ be16 1 ++ List.replicate 32 0 ++ be16 24 ++ [255, 255] ++
      writeAvcc m)

/-- Mirrors `write_stsd`. -/
def writeStsd (m : Fmp4Muxer) : List Nat :=
  writeBox (ascii "stsd") ([0] ++ [0, 0, 0] ++ be32 1 ++ writeAvc1 m)

/-- Mirrors `write_stts`. -/
def writeStts : List Nat := writeBox (ascii "stts") ([0] ++ [0, 0, 0] ++ be32 0)

/-- Mirrors `write_stsc`. -/
def writeStsc : List Nat := writeBox (ascii "stsc") ([0] ++ [0, 0, 0] ++ be32 0)

/-- Mirrors `write_stsz`. -/
def writeStsz : List Nat :=
  writeBox (ascii "stsz") ([0] ++ [0, 0, 0] ++ be32 0 ++ be32 0)

/-- Mirrors `write_stco`. -/
def writeStco : List Nat := writeBox (ascii "stco") ([0] ++ [0, 0, 0] ++ be32 0)

/-- Mirrors `write_stbl`. -/
def writeStbl (m : Fmp4Muxer) : List Nat :=
  writeBox (ascii "stbl") (writeStsd m ++ writeStts ++ writeStsc ++ writeStsz ++ writeStco)

/-- Mirrors `write_minf`. -/
def writeMinf (m : Fmp4Muxer) : List Nat :=
  writeBox (ascii "minf") (writeVmhd ++ writeDinf ++ writeStbl m)

/-- Mirrors `write_mdia`. -/
def writeMdia (m : Fmp4Muxer) : List Nat :=
  writeBox (ascii "mdia") (writeMdhd m ++ writeHdlr ++ writeMinf m)

/-- Mirrors `write_trak`. -/
def writeTrak (m : Fmp4Muxer) : List Nat :=
  writeBox (ascii "trak") (writeTkhd m ++ writeMdia m)

/-- Mirrors `write_trex`. -/
def writeTrex : List Nat :=
  writeBox (ascii "trex")
    ([0] ++ [0, 0, 0] ++ be32 1 ++ be32 1 ++ be32 0 ++ be32 0 ++ be32 0)

/-- Mirrors `write_mvex`. -/
def writeMvex : List Nat := writeBox (ascii "mvex") writeTrex

/-- Mirrors `write_moov`. -/
def writeMoov (m : Fmp4Muxer) : List Nat :=
  writeBox (ascii "moov") (writeMvhd m ++ writeTrak m ++ writeMvex)

/-- Mirrors `Fmp4Muxer::create_init_segment`: ftyp then moov. -/
def createInitSegment (m : Fmp4Muxer) : List Nat := writeFtyp ++ writeMoov m

/-- Mirrors `write_mfhd`. -/
def writeMfhd (m : Fmp4Muxer) : List Nat :=
  writeBox (ascii "mfhd") ([0] ++ [0, 0, 0] ++ be32 m.sequenceNumber)

/-- Mirrors `write_tfhd`: flags default-base-is-moof plus default-sample-flags,
track 1, default sample flags 0x01010000. -/
def writeTfhd : List Nat :=
  writeBox (ascii "tfhd") ([0] ++ [2, 0, 32] ++ be32 1 ++ be32 16842752)

/-- Mirrors `write_tfdt` (version 1, 64-bit decode time). -/
def writeTfdt (decodeTime : Nat) : List Nat :=
  writeBox (ascii "tfdt") ([1] ++ [0, 0, 0] ++ be64 decodeTime)

/-- The hand-computed `moof_size` inside `write_trun` (fmp4.rs lines 471-476):
8 for the moof header, 8+8 for mfhd, 8 for the traf header, 8+8 for tfhd,
8+12 for tfdt and 8+20 for trun, exactly as the source adds them up. -/
def trunMoofSizeGuess : Nat := 8 + (8 + 8) + 8 + (8 + 8) + (8 + 12) + (8 + 20)

/-- Mirrors `write_trun`: one sample, data offset `moof_size + 8` computed from
`trunMoofSizeGuess`, duration, size, and the keyframe/non-keyframe flags. -/
def writeTrun (frame : EncodedFrame) (duration : Nat) : List Nat :=
  writeBox (ascii "trun")
    ([0] ++ [0, 15, 1] ++ be32 1 ++ be32 (trunMoofSizeGuess + 8) ++
      be32 duration ++ be32 frame.data.length ++
      be32 (if frame.isKeyframe then 33554432 else 16842752))

/-- Mirrors `write_traf` (decode time = pts * duration). -/
def writeTraf (frame : EncodedFrame) (duration : Nat) : List Nat :=
  writeBox (ascii "traf")
    (writeTfhd ++ writeTfdt (frame.pts * duration) ++ writeTrun frame duration)

/-- Mirrors `write_moof`. -/
def writeMoof (m : Fmp4Muxer) (frame : EncodedFrame) (duration : Nat) : List Nat :=
  writeBox (ascii "moof") (writeMfhd m ++ writeTraf frame duration)

/-- Mirrors `write_mdat` (written directly, not through `write_box`, but with
the identical layout). -/
def writeMdat (data : List Nat) : List Nat :=
  be32 (8 + data.length) ++ ascii "mdat" ++ data

/-- Mirrors `Fmp4Muxer::create_media_segment`: moof then mdat, then the
sequence number is incremented. -/
def createMediaSegment (m : Fmp4Muxer) (frame : EncodedFrame) (duration : Nat) :
    List Nat × Fmp4Muxer :=
  (writeMoof m frame duration ++ writeMdat frame.data,
   ⟨m.width, m.height, m.timescale, m.sequenceNumber + 1, m.sps, m.pps⟩)

/-- Repeated `create_media_segment` calls over a list of encoded frames with a
fixed frame duration, as driven by `EncodingPipeline::encode_frame`. -/
def muxSegments (m : Fmp4Muxer) (duration : Nat) : List EncodedFrame → List (List Nat)
  | [] => []
  | f :: rest =>
    (createMediaSegment m f duration).1 ::
      muxSegments (createMediaSegment m f duration).2 duration rest

/-! ### A top-level MP4 box parser used to state the structure claims -/

/-- Reads a 4-byte big-endian value (used to state what a size or field slot
of a produced segment contains). -/
def decode4 : List Nat → Nat
  | a :: b :: c :: d :: _ => ((a * 256 + b) * 256 + c) * 256 + d
  | _ => 0

/-- Splits a byte string into its top-level MP4 boxes: reads the 4-byte
big-endian size and the fourcc of each box, checks that the size is at least 8
and fits in the remaining bytes, and returns the fourcc list; `none` when the
byte string is not a well-formed whole number of boxes.  Fuel-indexed for
structural recursion; `topBoxes` supplies the length as fuel. -/
def topBoxesF : Nat → List Nat → Option (List (List Nat))
  | 0, l => if l = [] then some [] else none
  | fuel + 1, l =>
    if l = [] then some []
    else
      let size := decode4 (l.take 4)
      let ty := (l.drop 4).take 4
      if 8 ≤ l.length ∧ 8 ≤ size ∧ size ≤ l.length then
        (topBoxesF fuel (l.drop size)).map (fun bs => ty :: bs)
      else none

/-- Drop one unit of fuel per box; a list of n bytes has at most n boxes. -/
def topBoxes (l : List Nat) : Option (List (List Nat)) := topBoxesF l.length l

/-- The 4 bytes holding `mfhd.sequence_number` inside a media segment:
8 bytes of moof header, 8 bytes of mfhd header and 4 bytes of
version/flags precede it. -/
def mfhdSeqBytes (seg : List Nat) : List Nat := (seg.drop 20).take 4

/-! ## H.264 encoder (crates/linglide-encoder/src/encoder.rs) -/

/-- Mirrors the first loop of `H264Encoder::check_keyframe` specialised to one
NAL type: scan `0 .. len-4` (saturating) for a 4-byte start code 00 00 00 01
whose following byte has low 5 bits equal to `ty`.  Indexing is via `getD`;
the loop bounds keep every access in range. -/
def fourByteHit (bytes : List Nat) (ty : Nat) : Bool :=
  (List.range (bytes.length - 4)).any fun i =>
    bytes.getD i 1 == 0 && bytes.getD (i + 1) 1 == 0 &&
    bytes.getD (i + 2) 1 == 0 && bytes.getD (i + 3) 1 == 1 &&
    decide (i + 4 < bytes.length) && bytes.getD (i + 4) 0 % 32 == ty

/-- Mirrors the second loop of `check_keyframe`: scan `0 .. len-3`
(saturating) for a 3-byte start code 00 00 01 not preceded by a zero byte
(`i == 0 || bytes[i-1] != 0`), whose following byte has low 5 bits `ty`. -/
def threeByteHit (bytes : List Nat) (ty : Nat) : Bool :=
  (List.range (bytes.length - 3)).any fun i =>
    bytes.getD i 1 == 0 && bytes.getD (i + 1) 1 == 0 &&
    bytes.getD (i + 2) 1 == 1 &&
    (i == 0 || !(bytes.getD (i - 1) 1 == 0)) &&
    decide (i + 3 < bytes.length) && bytes.getD (i + 3) 0 % 32 == ty

/-- Mirrors `H264Encoder::check_keyframe` (encoder.rs lines 141-183):
has_idr and has_sps are each set by either loop; the result is their
disjunction. -/
def check_keyframe (bytes : List Nat) : Bool :=
  (fourByteHit bytes 5 || threeByteHit bytes 5) ||
    (fourByteHit bytes 7 || threeByteHit bytes 7)

/-- The part of `H264Encoder` state that `encode` reads and writes:
the frame counter (i64 in Rust, never negative). -/
structure H264EncoderState where
  frameCount : Nat
deriving DecidableEq, Repr

/-- Mirrors the pure tail of `H264Encoder::encode` (encoder.rs lines 91-138)
given the bitstream bytes the OpenH264 library returned for this frame:
the keyframe flag is `check_keyframe` of the bytes, pts is the current frame
count, and the frame count is incremented.  No other state influences the
flag. -/
def encodeStep (st : H264EncoderState) (bitstream : List Nat) :
    EncodedFrame × H264EncoderState :=
  (⟨bitstream, st.frameCount, check_keyframe bitstream⟩, ⟨st.frameCount + 1⟩)

/-- Specification-side predicate: the byte string contains a NAL unit of type
`ty` introduced by a 4-byte (00 00 00 01) or 3-byte (00 00 01) Annex-B start
code.  (`getD` with the same defaults as the implementation; every index used
is in range thanks to the length bounds.) -/
def HasStartCodeNal (bytes : List Nat) (ty : Nat) : Prop :=
  ∃ i,
    (i + 4 < bytes.length ∧ bytes.getD i 1 = 0 ∧ bytes.getD (i + 1) 1 = 0 ∧
      bytes.getD (i + 2) 1 = 0 ∧ bytes.getD (i + 3) 1 = 1 ∧
      bytes.getD (i + 4) 0 % 32 = ty) ∨
    (i + 3 < bytes.length ∧ bytes.getD i 1 = 0 ∧ bytes.getD (i + 1) 1 = 0 ∧
      bytes.getD (i + 2) 1 = 1 ∧ bytes.getD (i + 3) 0 % 32 = ty)

/-- Mirrors Rust `clamp(0, 255)` on i32. -/
def clamp255 (v : Int) : Int := min (max v 0) 255

/-- The `y_val` formula of `bgra_to_yuv420` before clamping; the i32
arithmetic shift `>> 8` is an arithmetic (floor) shift, modelled as `fdiv`
by 256 (the intermediate values stay far inside the i32 range). -/
def yValRaw (r g b : Int) : Int :=
  Int.fdiv (66 * r + 129 * g + 25 * b + 128) 256 + 16

/-- The `u_val` formula of `bgra_to_yuv420` before clamping. -/
def uValRaw (r g b : Int) : Int :=
  Int.fdiv (-38 * r - 74 * g + 112 * b + 128) 256 + 128

/-- The `v_val` formula of `bgra_to_yuv420` before clamping. -/
def vValRaw (r g b : Int) : Int :=
  Int.fdiv (112 * r - 94 * g - 18 * b + 128) 256 + 128

/-- One iteration of the pixel loop of `H264Encoder::bgra_to_yuv420`
(encoder.rs lines 64-87).  The input reads are `getElem?`; a `none` result
would mean an out-of-bounds read of the input buffer (the `bgra_idx + 2 >=
bgra.len()` guard, mirrored as the first branch, skips the pixel instead).
The scratch buffer is a single list: Y plane at `0..w*h`, U plane at
`w*h..w*h + w*h/4`, V plane after that, exactly the `split_at_mut` layout. -/
def processPixel (w h : Nat) (bgra : List Nat) (y x : Nat) (yuv : List Nat) :
    Option (List Nat) :=
  let ySize := w * h
  let uvSize := ySize / 4
  let bgraIdx := (y * w + x) * 4
  if bgraIdx + 2 ≥ bgra.length then some yuv
  else
    match bgra[bgraIdx]?, bgra[bgraIdx + 1]?, bgra[bgraIdx + 2]? with
    | some b, some g, some r =>
      let yv := (clamp255 (yValRaw (r : Int) (g : Int) (b : Int))).toNat
      let yuv1 := yuv.set (y * w + x) yv
      if y % 2 == 0 && x % 2 == 0 then
        let uvIdx := (y / 2) * (w / 2) + x / 2
        let uv := (clamp255 (uValRaw (r : Int) (g : Int) (b : Int))).toNat
        let vv := (clamp255 (vValRaw (r : Int) (g : Int) (b : Int))).toNat
        some ((yuv1.set (ySize + uvIdx) uv).set (ySize + uvSize + uvIdx) vv)
      else
        some yuv1
    | _, _, _ => none

/-- Mirrors the nested `for y / for x` loops of `bgra_to_yuv420`: fold the
per-pixel step over rows then columns, threading the scratch buffer.  `none`
would indicate an out-of-bounds input read somewhere in the loop. -/
def bgra_to_yuv420 (w h : Nat) (bgra yuv : List Nat) : Option (List Nat) :=
  (List.range h).foldlM
    (fun acc y =>
      (List.range w).foldlM (fun acc2 x => processPixel w h bgra y x acc2) acc)
    yuv

/-- The indices of the scratch buffer that the pixel `(y, x)` loop iteration
actually writes: nothing when the guard skips the pixel, otherwise its Y-plane
byte plus, for even coordinates, its U- and V-plane bytes. -/
def pixelWrites (w h : Nat) (bgra : List Nat) (y x j : Nat) : Prop :=
  (y * w + x) * 4 + 2 < bgra.length ∧
  (j = y * w + x ∨
    (y % 2 = 0 ∧ x % 2 = 0 ∧
      (j = w * h + ((y / 2) * (w / 2) + x / 2) ∨
       j = w * h + w * h / 4 + ((y / 2) * (w / 2) + x / 2))))

/-! ## Input dispatcher, scroll path (crates/linglide-input/src/mouse.rs and
src/main.rs) -/

/-- The evdev events the relative mouse can emit for a scroll, plus the
closing SYN report. -/
inductive ScrollEv where
  | relWheel (v : Int)
  | relHWheel (v : Int)
  | syn
deriving DecidableEq, Repr

/-- Rust `f64 as i32` applied to the scroll quotients: truncation toward
zero, saturating at the i32 range.  The f64 arithmetic of `scroll` (one
division by 15 and a negation, on browser-supplied deltas) is modelled
exactly over ℚ. -/
def i32OfRat (q : ℚ) : Int :=
  max (-2147483648) (min 2147483647 (if 0 ≤ q then ⌊q⌋ else ⌈q⌉))

/-- Mirrors `RelativeMouse::scroll` (mouse.rs lines 154-185): computes the
two wheel values, returns without emitting anything when both are zero, and
otherwise emits REL_WHEEL (when nonzero), then REL_HWHEEL (when nonzero),
then SYN. -/
def RelativeMouse.scroll (dx dy : ℚ) : List ScrollEv :=
  let scroll_x := i32OfRat (-(dx / 15))
  let scroll_y := i32OfRat (-(dy / 15))
  if scroll_x == 0 && scroll_y == 0 then []
  else
    (if scroll_y != 0 then [ScrollEv.relWheel scroll_y] else []) ++
      (if scroll_x != 0 then [ScrollEv.relHWheel scroll_x] else []) ++
      [ScrollEv.syn]

/-- Mirrors `PenButton` (linglide-core/src/protocol.rs). -/
inductive PenButton where
  | primary
  | secondary
  | tertiary
  | eraser
deriving DecidableEq, Repr

/-- Mirrors `Modifiers` (protocol.rs). -/
structure Modifiers where
  ctrl : Bool
  alt : Bool
  shift : Bool
  meta : Bool
deriving DecidableEq, Repr

/-- Mirrors `InputEvent` (protocol.rs); f64 fields as ℚ. -/
inductive InputEvent where
  | touchStart (id : Nat) (x y : ℚ)
  | touchMove (id : Nat) (x y : ℚ)
  | touchEnd (id : Nat)
  | touchCancel (id : Nat)
  | mouseDown (button : Nat) (x y : ℚ)
  | mouseUp (button : Nat) (x y : ℚ)
  | mouseMove (x y : ℚ)
  | scroll (dx dy : ℚ)
  | keyDown (key : String) (modifiers : Modifiers)
  | keyUp (key : String) (modifiers : Modifiers)
  | penHover (x y pressure tiltX tiltY : ℚ)
  | penDown (x y pressure tiltX tiltY : ℚ) (button : PenButton)
  | penMove (x y pressure tiltX tiltY : ℚ)
  | penUp (x y : ℚ)
  | penButtonEvent (button : PenButton) (pressed : Bool)
deriving DecidableEq, Repr

/-- Which capability device the input task of src/main.rs (lines 524-570)
routes an event to; only the scroll arm carries its emitted events, the
subject of claim C8. -/
inductive DispatchTarget where
  | touchscreen
  | mouse
  | scrollMouse (events : List ScrollEv)
  | stylus
  | keyboardIgnored
deriving DecidableEq, Repr

/-- Mirrors the event match of the input task in src/main.rs: scroll goes to
the separate relative mouse (`scroll_mouse.scroll(dx, dy)`), keyboard is a
no-op, the rest go to the touchscreen / absolute mouse / stylus devices. -/
def dispatchInput : InputEvent → DispatchTarget
  | .touchStart .. => .touchscreen
  | .touchMove .. => .touchscreen
  | .touchEnd .. => .touchscreen
  | .touchCancel .. => .touchscreen
  | .mouseDown .. => .mouse
  | .mouseUp .. => .mouse
  | .mouseMove .. => .mouse
  | .scroll dx dy => .scrollMouse (RelativeMouse.scroll dx dy)
  | .keyDown .. => .keyboardIgnored
  | .keyUp .. => .keyboardIgnored
  | .penHover .. => .stylus
  | .penDown .. => .stylus
  | .penMove .. => .stylus
  | .penUp .. => .stylus
  | .penButtonEvent .. => .stylus

/-- The scroll events as the amended claim words them: for each axis in the
order REL_WHEEL (vertical) then REL_HWHEEL (horizontal), the value is the
saturating truncation toward zero of -delta/15; axes whose value is zero are
suppressed, and nothing at all (not even SYN) is emitted when both are
zero. -/
def specScrollEvents (dx dy : ℚ) : List ScrollEv :=
  let axes := [(i32OfRat (-(dy / 15)), ScrollEv.relWheel),
               (i32OfRat (-(dx / 15)), ScrollEv.relHWheel)]
  let emitted := (axes.filter (fun a => a.1 != 0)).map (fun a => a.2 a.1)
  if emitted = [] then [] else emitted ++ [ScrollEv.syn]

/-- The scroll events as claim C8 states them, with `round` in place of the
cast: REL_WHEEL = round(-dy/15), REL_HWHEEL = round(-dx/15), zero values
suppressed. -/
def specScrollEventsRound (dx dy : ℚ) : List ScrollEv :=
  let axes := [(round (-(dy / 15)), ScrollEv.relWheel),
               (round (-(dx / 15)), ScrollEv.relHWheel)]
  let emitted := (axes.filter (fun a => a.1 != 0)).map (fun a => a.2 a.1)
  if emitted = [] then [] else emitted ++ [ScrollEv.syn]

/-! ## Transport gateway (crates/linglide-server) -/

/-- The width/height/fps part of `Config` that the video handler reads. -/
structure ServerConfig where
  width : Nat
  height : Nat
  fps : Nat
deriving DecidableEq, Repr

/-- Mirrors `StreamSegment` (linglide-encoder/src/pipeline.rs). -/
structure StreamSegment where
  data : List Nat
  isInit : Bool
  isKeyframe : Bool
  sequence : Nat
deriving DecidableEq, Repr

/-- Mirrors `CodecConfig` (broadcast.rs). -/
structure CodecConfig where
  codecString : String
  avccData : List Nat
deriving DecidableEq, Repr

/-- The fields of `AppState` (broadcast.rs) the websocket handlers read; the
pairing manager is abstracted by a token-check function passed to the
handlers. -/
structure AppState where
  config : ServerConfig
  codecConfig : Option CodecConfig
  initSegment : Option (List Nat)
  keyframeSegment : Option (List Nat)
  authRequired : Bool
deriving DecidableEq, Repr

/-- Mirrors `ServerMessage` (protocol.rs), structurally (JSON serialization
is serde, outside the model). -/
inductive ServerMessage where
  | init (width height fps : Nat) (codec : Option String)
      (codecData : Option String)
  | error (message : String)
  | ready
  | ping (timestamp : Nat)
deriving DecidableEq, Repr

/-- A websocket message as the video handler sends it: text (a control
message) or binary (segment bytes). -/
inductive WsMessage where
  | text (m : ServerMessage)
  | binary (data : List Nat)
deriving DecidableEq, Repr

/-- The standard base64 alphabet used by `BASE64` (`engine::general_purpose::STANDARD`). -/
def b64Alphabet : List Char :=
  "ABCDEFGHIJKLMNOPQRSTUVWXYZabcdefghijklmnopqrstuvwxyz0123456789+/".toList

/-- Character of a 6-bit group. -/
def b64Char (n : Nat) : Char := b64Alphabet.getD n (Char.ofNat 65)

/-- Standard base64 with padding over bytes (values < 256), three input
bytes per four output characters. -/
def base64Chunks : List Nat → List Char
  | a :: b :: c :: rest =>
    b64Char (a / 4) :: b64Char (a % 4 * 16 + b / 16) ::
      b64Char (b % 16 * 4 + c / 64) :: b64Char (c % 64) :: base64Chunks rest
  | [a, b] => [b64Char (a / 4), b64Char (a % 4 * 16 + b / 16),
      b64Char (b % 16 * 4), Char.ofNat 61]
  | [a] => [b64Char (a / 4), b64Char (a % 4 * 16), Char.ofNat 61, Char.ofNat 61]
  | [] => []

/-- Mirrors `BASE64.encode`. -/
def base64Encode (bytes : List Nat) : String := String.mk (base64Chunks bytes)

/-- Mirrors the message-producing skeleton of `handle_video_socket`
(websocket.rs lines 113-244): the Init text message (codec fields from the
codec config, avcC bytes base64-encoded), the Ready text message, the init
segment and the cached keyframe segment as single binary messages when
present, then one binary message per live segment received from the
broadcast subscription, in subscription order.  JSON encoding and the
30-second keepalive pings (sent only when no segment arrives) are outside
the model; a failed send returns early, which only truncates this
sequence. -/
def handleVideoSocket (st : AppState) (live : List StreamSegment) :
    List WsMessage :=
  let codecPair : Option String × Option String :=
    match st.codecConfig with
    | some c => (some c.codecString, some (base64Encode c.avccData))
    | none => (none, none)
  [WsMessage.text (.init st.config.width st.config.height st.config.fps
      codecPair.1 codecPair.2),
    WsMessage.text .ready] ++
  (match st.initSegment with
   | some seg => [WsMessage.binary seg]
   | none => []) ++
  (match st.keyframeSegment with
   | some seg => [WsMessage.binary seg]
   | none => []) ++
  live.map (fun s => WsMessage.binary s.data)

/-- Mirrors `AppState::validate_token` (broadcast.rs lines 104-111), with the
pairing-manager lookup abstracted as `pairingOk`. -/
def AppState.validateToken (st : AppState) (pairingOk : String → Bool)
    (token : String) : Bool :=
  if !st.authRequired then true else pairingOk token

/-- Mirrors `extract_token` (websocket.rs lines 31-47): query parameter
first, then the Bearer prefix of the Authorization header. -/
def extractToken (queryToken authHeader : Option String) : Option String :=
  match queryToken with
  | some t => some t
  | none =>
    match authHeader with
    | some a => if a.startsWith "Bearer " then some (a.drop 7) else none
    | none => none

/-- Outcome of a websocket upgrade request. -/
inductive UpgradeResult where
  | unauthorized
  | upgraded
deriving DecidableEq, Repr

/-- Mirrors `video_ws_handler` (websocket.rs lines 50-77): when auth is
required, a missing or invalid token yields 401 before the upgrade;
otherwise the socket is upgraded (the last-seen touch is a side effect
outside the model). -/
def videoWsHandler (st : AppState) (pairingOk : String → Bool)
    (queryToken authHeader : Option String) : UpgradeResult :=
  if st.authRequired then
    match extractToken queryToken authHeader with
    | none => .unauthorized
    | some t =>
      if st.validateToken pairingOk t then .upgraded else .unauthorized
  else .upgraded

/-- Mirrors `input_ws_handler` (websocket.rs lines 80-110), whose auth logic
is identical to the video handler. -/
def inputWsHandler (st : AppState) (pairingOk : String → Bool)
    (queryToken authHeader : Option String) : UpgradeResult :=
  if st.authRequired then
    match extractToken queryToken authHeader with
    | none => .unauthorized
    | some t =>
      if st.validateToken pairingOk t then .upgraded else .unauthorized
  else .upgraded

/-! ## Theorems -/

/-! ### Theorems: C1 and C2 -/

theorem find?_map_keyed_insert (pred : Device → Bool) (v : Device) (k : String)
    (hv : pred v = true) :
    ∀ l : List (String × Device), (∀ p ∈ l, pred p.2 = false) →
      (l.map (fun p => if p.1 == k then (k, v) else p)).find?
        (fun p => pred p.2) =
      if l.any (fun p => p.1 == k) then some (k, v) else none := by
  intro l
  induction l with
  | nil => intro _; simp
  | cons hd tl ih =>
    intro hall
    have hhd : pred hd.2 = false := hall hd (by simp)
    have htl : ∀ p ∈ tl, pred p.2 = false := fun p hp => hall p (by simp [hp])
    cases hk : (hd.1 == k) with
    | true =>
      simp only [List.map_cons, List.any_cons, hk, Bool.true_or, if_true,
        eq_self_iff_true]
      rw [List.find?_cons_of_pos _ (by simpa using hv)]
    | false =>
      simp only [List.map_cons, List.any_cons, hk, Bool.false_or,
        Bool.false_eq_true, if_false]
      rw [List.find?_cons_of_neg _ (by simp [hhd])]
      exact ih htl

theorem find?_insertDevice (l : List (String × Device)) (k : String) (v : Device)
    (pred : Device → Bool) (hv : pred v = true)
    (hl : ∀ p ∈ l, pred p.2 = false) :
    (insertDevice l k v).find? (fun p => pred p.2) = some (k, v) := by
  unfold insertDevice
  by_cases hany : l.any (fun p => p.1 == k)
  · rw [if_pos hany, find?_map_keyed_insert pred v k hv l hl, if_pos hany]
  · rw [if_neg hany, List.find?_append]
    have h1 : l.find? (fun p => pred p.2) = none := by
      rw [List.find?_eq_none]
      intro p hp
      simp [hl p hp]
    simp [h1, List.find?, hv]

/-- C1: for every pairing session in state PENDING and every request with the
correct, unexpired PIN, `verify_pin` returns a `(device_id, token)` pair such
that a subsequent `validate_token(token)` on the resulting state succeeds and
returns a Device whose id equals the returned device id and whose stored hash
is `hash_token` of the token wire form.  The collision hypothesis `hfresh`
states that no previously stored device carries the hash of the fresh token
(guaranteed in practice by SHA-256 collision resistance; the hash itself is
modelled as an abstract deterministic function). -/
theorem verify_pin_validate_token_roundtrip
    (hashToken : String → String) (now : Int) (freshToken freshId : String)
    (st : AuthState) (req : PairingVerifyRequest) (session : PairingSession)
    (hfind : (st.sessions.find? (fun p => p.1 == req.sessionId)).map
      (fun p => p.2) = some session)
    (hpin : session.verifyPinAt now req.pin = true)
    (hfresh : ∀ p ∈ st.devices, ¬ p.2.tokenHash = hashToken freshToken) :
    ∃ st2, verifyPin hashToken now freshToken freshId st req
        = (st2, .ok ⟨freshId, freshToken⟩) ∧
      ∃ d, validateToken hashToken st2 freshToken = .ok d ∧
        d.id = freshId ∧ d.tokenHash = hashToken freshToken := by
  refine ⟨⟨st.sessions.filter (fun p => !(p.1 == req.sessionId)),
    insertDevice st.devices freshId
      ⟨freshId, req.deviceName, deviceTypeOf req.deviceType, now, now,
        hashToken freshToken⟩⟩, ?_, ?_⟩
  · unfold verifyPin
    rw [hfind]
    simp [hpin]
  · refine ⟨⟨freshId, req.deviceName, deviceTypeOf req.deviceType, now, now,
      hashToken freshToken⟩, ?_, rfl, rfl⟩
    have hf := find?_insertDevice st.devices freshId
      ⟨freshId, req.deviceName, deviceTypeOf req.deviceType, now, now,
        hashToken freshToken⟩
      (fun d => d.tokenHash == hashToken freshToken) (by simp)
      (fun p hp => by simpa using hfresh p hp)
    simp [validateToken, getDeviceByTokenHash, hf]

theorem verify_pin_validate_token_roundtrip_witness :
    ((⟨[("s1", ⟨"s1", "123456", 60⟩)], []⟩ :
        AuthState).sessions.find? (fun p => p.1 == "s1")).map (fun p => p.2)
      = some ⟨"s1", "123456", 60⟩ ∧
    PairingSession.verifyPinAt ⟨"s1", "123456", 60⟩ 0 "123456" = true ∧
    (∃ st2, verifyPin (fun s => s) 0 "tokenW" "devW"
        ⟨[("s1", ⟨"s1", "123456", 60⟩)], []⟩ ⟨"s1", "123456", "Phone", some "android"⟩
        = (st2, .ok ⟨"devW", "tokenW"⟩) ∧
      ∃ d, validateToken (fun s => s) st2 "tokenW" = .ok d ∧
        d.id = "devW" ∧ d.tokenHash = (fun s => s) "tokenW") :=
  ⟨by decide, by decide,
    verify_pin_validate_token_roundtrip (fun s => s) 0 "tokenW" "devW"
      ⟨[("s1", ⟨"s1", "123456", 60⟩)], []⟩
      ⟨"s1", "123456", "Phone", some "android"⟩ ⟨"s1", "123456", 60⟩
      (by decide) (by decide) (by simp)⟩

/-- C2: if the session exists but the supplied PIN is wrong or the session has
expired, `verify_pin` fails with `InvalidPin` and leaves the whole state (in
particular the session map) unchanged, so a later call on the same state with
the correct PIN inside the validity window still succeeds. -/
theorem verify_pin_wrong_pin_keeps_session
    (hashToken : String → String) (now : Int) (freshToken freshId : String)
    (st : AuthState) (req : PairingVerifyRequest) (session : PairingSession)
    (hfind : (st.sessions.find? (fun p => p.1 == req.sessionId)).map
      (fun p => p.2) = some session)
    (hbad : session.verifyPinAt now req.pin = false) :
    verifyPin hashToken now freshToken freshId st req = (st, .error .invalidPin) ∧
    ∀ now2 tok2 id2, session.isExpiredAt now2 = false →
      ∃ st2, verifyPin hashToken now2 tok2 id2 st
          ⟨req.sessionId, session.pin, req.deviceName, req.deviceType⟩
        = (st2, .ok ⟨id2, tok2⟩) := by
  constructor
  · unfold verifyPin
    rw [hfind]
    simp [hbad]
  · intro now2 tok2 id2 hlive
    refine ⟨⟨st.sessions.filter (fun p => !(p.1 == req.sessionId)),
      insertDevice st.devices id2
        ⟨id2, req.deviceName, deviceTypeOf req.deviceType, now2, now2,
          hashToken tok2⟩⟩, ?_⟩
    unfold verifyPin
    rw [hfind]
    simp [PairingSession.verifyPinAt, hlive]

theorem verify_pin_wrong_pin_keeps_session_witness :
    ((⟨[("s1", ⟨"s1", "123456", 60⟩)], []⟩ :
        AuthState).sessions.find? (fun p => p.1 == "s1")).map (fun p => p.2)
      = some ⟨"s1", "123456", 60⟩ ∧
    PairingSession.verifyPinAt ⟨"s1", "123456", 60⟩ 0 "000000" = false ∧
    (verifyPin (fun s => s) 0 "tokenW2" "devW2"
        ⟨[("s1", ⟨"s1", "123456", 60⟩)], []⟩ ⟨"s1", "000000", "Tab", none⟩
      = (⟨[("s1", ⟨"s1", "123456", 60⟩)], []⟩, .error .invalidPin) ∧
    ∀ now2 tok2 id2, PairingSession.isExpiredAt ⟨"s1", "123456", 60⟩ now2 = false →
      ∃ st2, verifyPin (fun s => s) now2 tok2 id2
          ⟨[("s1", ⟨"s1", "123456", 60⟩)], []⟩ ⟨"s1", "123456", "Tab", none⟩
        = (st2, .ok ⟨id2, tok2⟩)) :=
  ⟨by decide, by decide,
    verify_pin_wrong_pin_keeps_session (fun s => s) 0 "tokenW2" "devW2"
      ⟨[("s1", ⟨"s1", "123456", 60⟩)], []⟩ ⟨"s1", "000000", "Tab", none⟩
      ⟨"s1", "123456", 60⟩ (by decide) (by decide)⟩

/-! ### Theorems: C3 and C4 -/

theorem decode4_be32 (n : Nat) : decode4 (be32 n) = n % 4294967296 := by
  simp only [be32, decode4]
  omega

theorem length_be16 (n : Nat) : (be16 n).length = 2 := rfl

theorem length_be32 (n : Nat) : (be32 n).length = 4 := rfl

theorem length_be64 (n : Nat) : (be64 n).length = 8 := rfl

theorem length_identityMatrix : identityMatrix.length = 36 := rfl

theorem length_writeBox (ty content : List Nat) (h4 : ty.length = 4) :
    (writeBox ty content).length = 8 + content.length := by
  have hb : (be32 (8 + content.length)).length = 4 := rfl
  rw [writeBox, List.length_append, List.length_append, hb, h4]

theorem length_writeFtyp : writeFtyp.length = 32 := rfl

theorem length_writeMvhd (m : Fmp4Muxer) : (writeMvhd m).length = 108 := by
  rw [writeMvhd, length_writeBox (ascii "mvhd") _ rfl]
  simp [List.length_append, length_be16, length_be32, length_be64,
    length_identityMatrix]

theorem length_writeTkhd (m : Fmp4Muxer) : (writeTkhd m).length = 92 := by
  rw [writeTkhd, length_writeBox (ascii "tkhd") _ rfl]
  simp [List.length_append, length_be16, length_be32, length_be64,
    length_identityMatrix]

theorem length_writeMdhd (m : Fmp4Muxer) : (writeMdhd m).length = 32 := by
  rw [writeMdhd, length_writeBox (ascii "mdhd") _ rfl]
  simp [List.length_append, length_be16, length_be32]

theorem length_writeHdlr : writeHdlr.length = 45 := by
  rw [writeHdlr, length_writeBox (ascii "hdlr") _ rfl]
  simp [List.length_append, length_be32,
    show (ascii "vide").length = 4 from rfl,
    show (ascii "VideoHandler").length = 12 from rfl]

theorem length_writeVmhd : writeVmhd.length = 20 := rfl

theorem length_writeDinf : writeDinf.length = 36 := rfl

theorem length_writeAvcc (m : Fmp4Muxer) :
    (writeAvcc m).length = 19 + m.sps.length + m.pps.length := by
  rw [writeAvcc, length_writeBox (ascii "avcC") _ rfl]
  simp [List.length_append, length_be16]
  omega

theorem length_writeAvc1 (m : Fmp4Muxer) :
    (writeAvc1 m).length = 105 + m.sps.length + m.pps.length := by
  rw [writeAvc1, length_writeBox (ascii "avc1") _ rfl]
  simp [List.length_append, length_be16, length_be32, length_writeAvcc m]
  omega

theorem length_writeStsd (m : Fmp4Muxer) :
    (writeStsd m).length = 121 + m.sps.length + m.pps.length := by
  rw [writeStsd, length_writeBox (ascii "stsd") _ rfl]
  simp [List.length_append, length_be32, length_writeAvc1 m]
  omega

theorem length_writeStbl (m : Fmp4Muxer) :
    (writeStbl m).length = 197 + m.sps.length + m.pps.length := by
  rw [writeStbl, length_writeBox (ascii "stbl") _ rfl]
  simp [List.length_append, length_writeStsd m,
    show writeStts.length = 16 from rfl, show writeStsc.length = 16 from rfl,
    show writeStsz.length = 20 from rfl, show writeStco.length = 16 from rfl]
  omega

theorem length_writeMinf (m : Fmp4Muxer) :
    (writeMinf m).length = 261 + m.sps.length + m.pps.length := by
  rw [writeMinf, length_writeBox (ascii "minf") _ rfl]
  simp [List.length_append, length_writeStbl m, length_writeVmhd, length_writeDinf]
  omega

theorem length_writeMdia (m : Fmp4Muxer) :
    (writeMdia m).length = 346 + m.sps.length + m.pps.length := by
  rw [writeMdia, length_writeBox (ascii "mdia") _ rfl]
  simp [List.length_append, length_writeMinf m, length_writeMdhd m, length_writeHdlr]
  omega

theorem length_writeTrak (m : Fmp4Muxer) :
    (writeTrak m).length = 446 + m.sps.length + m.pps.length := by
  rw [writeTrak, length_writeBox (ascii "trak") _ rfl]
  simp [List.length_append, length_writeMdia m, length_writeTkhd m]
  omega

theorem length_writeMvex : writeMvex.length = 40 := rfl

theorem length_writeMoov (m : Fmp4Muxer) :
    (writeMoov m).length = 602 + m.sps.length + m.pps.length := by
  rw [writeMoov, length_writeBox (ascii "moov") _ rfl]
  simp [List.length_append, length_writeTrak m, length_writeMvhd m, length_writeMvex]
  omega

theorem length_createInitSegment (m : Fmp4Muxer) :
    (createInitSegment m).length = 634 + (m.sps.length + m.pps.length) := by
  rw [createInitSegment, List.length_append, length_writeFtyp, length_writeMoov m]
  omega

theorem length_writeMfhd (m : Fmp4Muxer) : (writeMfhd m).length = 16 := rfl

theorem length_writeTfhd : writeTfhd.length = 20 := rfl

theorem length_writeTfdt (t : Nat) : (writeTfdt t).length = 20 := rfl

theorem length_writeTrun (f : EncodedFrame) (dur : Nat) :
    (writeTrun f dur).length = 32 := by
  rw [writeTrun, length_writeBox (ascii "trun") _ rfl]
  simp [List.length_append, length_be32]

theorem length_writeTraf (f : EncodedFrame) (dur : Nat) :
    (writeTraf f dur).length = 80 := by
  rw [writeTraf, length_writeBox (ascii "traf") _ rfl]
  simp [List.length_append, length_writeTfhd, length_writeTfdt, length_writeTrun]

theorem length_writeMoof (m : Fmp4Muxer) (f : EncodedFrame) (dur : Nat) :
    (writeMoof m f dur).length = 104 := by
  rw [writeMoof, length_writeBox (ascii "moof") _ rfl]
  simp [List.length_append, length_writeMfhd, length_writeTraf]

theorem length_writeMdat (d : List Nat) : (writeMdat d).length = 8 + d.length := by
  have h4 : (ascii "mdat").length = 4 := rfl
  have hb : (be32 (8 + d.length)).length = 4 := rfl
  rw [writeMdat, List.length_append, List.length_append, hb, h4]

/-- C3 (code bug): the data-offset field written inside the trun box does not
equal moof size + 8.  The source hand-computes the moof size as 96
(`trunMoofSizeGuess`), under-counting tfhd by 4 (its box is 20 bytes, the
source counts 8+8) and trun by 4 (32 bytes, counted 8+20); the real moof box
is 104 bytes, so the written offset 96+8 = 104 equals the moof size itself and
points at the mdat box header, 8 bytes before the first byte of sample data.
This contradicts both the source comment (data offset = moof size + mdat
header) and the spec.  The first conjunct locates the written field: bytes
16..20 of the trun box (after its size, fourcc, version/flags and sample
count) hold `be32 (trunMoofSizeGuess + 8)`. -/
theorem trun_data_offset_mismatch (m : Fmp4Muxer) (f : EncodedFrame) (dur : Nat) :
    ((writeTrun f dur).drop 16).take 4 = be32 (trunMoofSizeGuess + 8) ∧
    trunMoofSizeGuess + 8 = 104 ∧
    (writeMoof m f dur).length = 104 ∧
    ¬ trunMoofSizeGuess + 8 = (writeMoof m f dur).length + 8 := by
  have hg : trunMoofSizeGuess = 96 := rfl
  have hlen := length_writeMoof m f dur
  exact ⟨rfl, rfl, hlen, by omega⟩

theorem topBoxesF_nil (fuel : Nat) : topBoxesF fuel [] = some [] := by
  cases fuel <;> rfl

theorem topBoxesF_box (fuel : Nat) (ty content rest : List Nat)
    (h4 : ty.length = 4) (hlen : 8 + content.length < 4294967296) :
    topBoxesF (fuel + 1) (writeBox ty content ++ rest) =
      (topBoxesF fuel rest).map (fun bs => ty :: bs) := by
  have hwb : (writeBox ty content).length = 8 + content.length :=
    length_writeBox ty content h4
  have hlenl : (writeBox ty content ++ rest).length
      = 8 + content.length + rest.length := by
    rw [List.length_append, hwb]
  have hne : ¬ (writeBox ty content ++ rest) = [] := by
    intro hc
    rw [hc] at hlenl
    simp only [List.length_nil] at hlenl
    omega
  have hb4 : (be32 (8 + content.length)).length = 4 := rfl
  have htake : (writeBox ty content ++ rest).take 4 = be32 (8 + content.length) := by
    rw [writeBox, List.append_assoc, List.append_assoc]
    exact List.take_left' hb4
  have hty : ((writeBox ty content ++ rest).drop 4).take 4 = ty := by
    rw [writeBox, List.append_assoc, List.append_assoc, List.drop_left' hb4]
    exact List.take_left' h4
  have hdrop : (writeBox ty content ++ rest).drop (8 + content.length) = rest :=
    List.drop_left' hwb
  simp only [topBoxesF]
  rw [if_neg hne]
  simp only [htake, hty, hlenl]
  rw [show decode4 (be32 (8 + content.length)) = 8 + content.length from by
    rw [decode4_be32]; omega]
  rw [hdrop, if_pos ⟨by omega, by omega, by omega⟩]

theorem topBoxesF_box_last (fuel : Nat) (ty content : List Nat)
    (h4 : ty.length = 4) (hlen : 8 + content.length < 4294967296) :
    topBoxesF (fuel + 1) (writeBox ty content) = some [ty] := by
  have hstep := topBoxesF_box fuel ty content [] h4 hlen
  rw [List.append_nil] at hstep
  rw [hstep, topBoxesF_nil]
  rfl

theorem mfhdSeq_muxSegments (dur : Nat) (frames : List EncodedFrame) :
    ∀ m : Fmp4Muxer,
      (muxSegments m dur frames).map (fun s => decode4 (mfhdSeqBytes s)) =
        (List.range frames.length).map
          (fun i => (m.sequenceNumber + i) % 4294967296) := by
  induction frames with
  | nil => intro m; simp [muxSegments]
  | cons f rest ih =>
    intro m
    simp only [muxSegments, List.map_cons, List.length_cons]
    have hhead : mfhdSeqBytes (createMediaSegment m f dur).1
        = be32 m.sequenceNumber := rfl
    have h2 : (createMediaSegment m f dur).2
        = ⟨m.width, m.height, m.timescale, m.sequenceNumber + 1, m.sps, m.pps⟩ := rfl
    rw [hhead, decode4_be32, h2,
      ih ⟨m.width, m.height, m.timescale, m.sequenceNumber + 1, m.sps, m.pps⟩,
      List.range_succ_eq_map, List.map_cons, List.map_map]
    simp [Function.comp, Nat.add_comm, Nat.add_assoc, Nat.add_left_comm]

/-- C4: the init segment is a ftyp box immediately followed by a moov box
covering the whole byte string; every media segment is a moof box immediately
followed by an mdat box covering the whole byte string; and the
`mfhd.sequence_number` values carried by successive media segments of one
muxer run are 1, 2, 3, ... in production order, hence strictly increasing
from 1 as long as the 32-bit field has not wrapped.  The size hypotheses keep
the u32 box-size fields from wrapping. -/
theorem fmp4_segment_structure_and_sequence :
    (∀ m : Fmp4Muxer, m.sps.length + m.pps.length < 1048576 →
      topBoxes (createInitSegment m) = some [ascii "ftyp", ascii "moov"]) ∧
    (∀ (m : Fmp4Muxer) (f : EncodedFrame) (dur : Nat),
      8 + f.data.length < 4294967296 →
      topBoxes (createMediaSegment m f dur).1 = some [ascii "moof", ascii "mdat"]) ∧
    (∀ (w h fps dur : Nat) (frames : List EncodedFrame),
      (muxSegments (Fmp4Muxer.new w h fps) dur frames).map
          (fun s => decode4 (mfhdSeqBytes s)) =
        (List.range frames.length).map (fun i => (i + 1) % 4294967296)) ∧
    (∀ (w h fps dur : Nat) (frames : List EncodedFrame) (i j : Nat),
      i < j → j < frames.length → j + 1 < 4294967296 →
      ∃ a b,
        ((muxSegments (Fmp4Muxer.new w h fps) dur frames).map
            (fun s => decode4 (mfhdSeqBytes s)))[i]? = some a ∧
        ((muxSegments (Fmp4Muxer.new w h fps) dur frames).map
            (fun s => decode4 (mfhdSeqBytes s)))[j]? = some b ∧
        a < b) := by
  have hseq : ∀ (w h fps dur : Nat) (frames : List EncodedFrame),
      (muxSegments (Fmp4Muxer.new w h fps) dur frames).map
          (fun s => decode4 (mfhdSeqBytes s)) =
        (List.range frames.length).map (fun i => (i + 1) % 4294967296) := by
    intro w h fps dur frames
    rw [mfhdSeq_muxSegments dur frames (Fmp4Muxer.new w h fps)]
    simp [Fmp4Muxer.new, Nat.add_comm]
  refine ⟨?_, ?_, hseq, ?_⟩
  · intro m hm
    obtain ⟨fuel, hf⟩ : ∃ fuel, (createInitSegment m).length = fuel + 1 + 1 :=
      ⟨632 + (m.sps.length + m.pps.length), by rw [length_createInitSegment]; omega⟩
    have hmoovbound : 8 + (writeMvhd m ++ writeTrak m ++ writeMvex).length
        < 4294967296 := by
      rw [List.length_append, List.length_append, length_writeMvhd m,
        length_writeTrak m, length_writeMvex]
      omega
    have hmoov : topBoxesF (fuel + 1) (writeMoov m) = some [ascii "moov"] :=
      topBoxesF_box_last fuel (ascii "moov")
        (writeMvhd m ++ writeTrak m ++ writeMvex) rfl hmoovbound
    have hstep := topBoxesF_box (fuel + 1) (ascii "ftyp")
      (ascii "isom" ++ be32 512 ++ ascii "isomiso2avc1mp41") (writeMoov m)
      rfl (by decide)
    unfold topBoxes
    rw [hf,
      show createInitSegment m
        = writeBox (ascii "ftyp")
            (ascii "isom" ++ be32 512 ++ ascii "isomiso2avc1mp41")
          ++ writeMoov m from rfl,
      hstep, hmoov]
    rfl
  · intro m f dur hsize
    have hmoofc : (writeMfhd m ++ writeTraf f dur).length = 96 := by
      rw [List.length_append, length_writeMfhd, length_writeTraf]
    obtain ⟨fuel, hf⟩ : ∃ fuel,
        ((createMediaSegment m f dur).1).length = fuel + 1 + 1 :=
      ⟨110 + f.data.length, by
        rw [show (createMediaSegment m f dur).1
            = writeMoof m f dur ++ writeMdat f.data from rfl,
          List.length_append, length_writeMoof, length_writeMdat]
        omega⟩
    have hlast : topBoxesF (fuel + 1) (writeMdat f.data) = some [ascii "mdat"] := by
      have h := topBoxesF_box_last fuel (ascii "mdat") f.data rfl (by omega)
      exact h
    have hstep := topBoxesF_box (fuel + 1) (ascii "moof")
      (writeMfhd m ++ writeTraf f dur) (writeMdat f.data) rfl
      (by rw [hmoofc]; omega)
    unfold topBoxes
    rw [hf,
      show (createMediaSegment m f dur).1
        = writeBox (ascii "moof") (writeMfhd m ++ writeTraf f dur)
          ++ writeMdat f.data from rfl,
      hstep, hlast]
    rfl
  · intro w h fps dur frames i j hij hj hwrap
    refine ⟨(i + 1) % 4294967296, (j + 1) % 4294967296, ?_, ?_, ?_⟩
    · rw [hseq w h fps dur frames]
      simp [List.getElem?_map, List.getElem?_range, Nat.lt_trans hij hj]
    · rw [hseq w h fps dur frames]
      simp [List.getElem?_map, List.getElem?_range, hj]
    · have h1 : (i + 1) % 4294967296 = i + 1 := Nat.mod_eq_of_lt (by omega)
      have h2 : (j + 1) % 4294967296 = j + 1 := Nat.mod_eq_of_lt hwrap
      omega

theorem fmp4_segment_structure_and_sequence_witness :
    ((⟨2, 2, 60000, 1, [103, 66, 0, 42], [104, 206, 60, 128]⟩ :
        Fmp4Muxer).sps.length +
      (⟨2, 2, 60000, 1, [103, 66, 0, 42], [104, 206, 60, 128]⟩ :
        Fmp4Muxer).pps.length < 1048576) ∧
    topBoxes (createInitSegment
        ⟨2, 2, 60000, 1, [103, 66, 0, 42], [104, 206, 60, 128]⟩) =
      some [ascii "ftyp", ascii "moov"] ∧
    (8 + (⟨[0, 0, 0, 1, 101], 0, true⟩ : EncodedFrame).data.length < 4294967296) ∧
    topBoxes (createMediaSegment
        ⟨2, 2, 60000, 1, [103, 66, 0, 42], [104, 206, 60, 128]⟩
        ⟨[0, 0, 0, 1, 101], 0, true⟩ 1000).1 = some [ascii "moof", ascii "mdat"] ∧
    ((0 : Nat) < 1 ∧ 1 < ([⟨[0, 0, 0, 1, 101], 0, true⟩,
        ⟨[0, 0, 0, 1, 65], 1, false⟩] : List EncodedFrame).length ∧
      1 + 1 < 4294967296) ∧
    (∃ a b,
      ((muxSegments (Fmp4Muxer.new 2 2 30) 1000
          [⟨[0, 0, 0, 1, 101], 0, true⟩, ⟨[0, 0, 0, 1, 65], 1, false⟩]).map
          (fun s => decode4 (mfhdSeqBytes s)))[0]? = some a ∧
      ((muxSegments (Fmp4Muxer.new 2 2 30) 1000
          [⟨[0, 0, 0, 1, 101], 0, true⟩, ⟨[0, 0, 0, 1, 65], 1, false⟩]).map
          (fun s => decode4 (mfhdSeqBytes s)))[1]? = some b ∧
      a < b) :=
  ⟨by decide,
    fmp4_segment_structure_and_sequence.1
      ⟨2, 2, 60000, 1, [103, 66, 0, 42], [104, 206, 60, 128]⟩ (by decide),
    by decide,
    fmp4_segment_structure_and_sequence.2.1
      ⟨2, 2, 60000, 1, [103, 66, 0, 42], [104, 206, 60, 128]⟩
      ⟨[0, 0, 0, 1, 101], 0, true⟩ 1000 (by decide),
    ⟨by decide, by decide, by decide⟩,
    fmp4_segment_structure_and_sequence.2.2.2 2 2 30 1000
      [⟨[0, 0, 0, 1, 101], 0, true⟩, ⟨[0, 0, 0, 1, 65], 1, false⟩] 0 1
      (by decide) (by decide) (by decide)⟩

/-! ### Theorems: C5 and C6 -/

theorem hit_iff_hasStartCodeNal (bytes : List Nat) (ty : Nat) :
    (fourByteHit bytes ty || threeByteHit bytes ty) = true ↔
      HasStartCodeNal bytes ty := by
  constructor
  · intro h
    rw [Bool.or_eq_true] at h
    rcases h with h4 | h3
    · obtain ⟨i, hi, hcond⟩ := List.any_eq_true.mp h4
      simp only [Bool.and_eq_true, beq_iff_eq, decide_eq_true_eq] at hcond
      obtain ⟨⟨⟨⟨⟨h0, h1⟩, h2⟩, hc3⟩, hlt⟩, hty⟩ := hcond
      exact ⟨i, Or.inl ⟨hlt, h0, h1, h2, hc3, hty⟩⟩
    · obtain ⟨i, hi, hcond⟩ := List.any_eq_true.mp h3
      simp only [Bool.and_eq_true, beq_iff_eq, decide_eq_true_eq] at hcond
      obtain ⟨⟨⟨⟨⟨h0, h1⟩, h2⟩, hprev⟩, hlt⟩, hty⟩ := hcond
      exact ⟨i, Or.inr ⟨hlt, h0, h1, h2, hty⟩⟩
  · rintro ⟨i, ⟨hlt, h0, h1, h2, hc3, hty⟩ | ⟨hlt, h0, h1, h2, hty⟩⟩
    · rw [Bool.or_eq_true]
      refine Or.inl (List.any_eq_true.mpr ⟨i, ?_, ?_⟩)
      · exact List.mem_range.mpr (by omega)
      · simp only [Bool.and_eq_true, beq_iff_eq, decide_eq_true_eq]
        exact ⟨⟨⟨⟨⟨h0, h1⟩, h2⟩, hc3⟩, hlt⟩, hty⟩
    · by_cases hz : i = 0 ∨ ¬ bytes.getD (i - 1) 1 = 0
      · rw [Bool.or_eq_true]
        refine Or.inr (List.any_eq_true.mpr ⟨i, ?_, ?_⟩)
        · exact List.mem_range.mpr (by omega)
        · simp only [Bool.and_eq_true, Bool.or_eq_true, beq_iff_eq,
            decide_eq_true_eq, Bool.not_eq_true', beq_eq_false_iff_ne, ne_eq]
          exact ⟨⟨⟨⟨⟨h0, h1⟩, h2⟩, hz⟩, hlt⟩, hty⟩
      · push_neg at hz
        obtain ⟨hi0, hprev0⟩ := hz
        rw [Bool.or_eq_true]
        refine Or.inl (List.any_eq_true.mpr ⟨i - 1, ?_, ?_⟩)
        · exact List.mem_range.mpr (by omega)
        · simp only [Bool.and_eq_true, beq_iff_eq, decide_eq_true_eq]
          have e1 : i - 1 + 1 = i := by omega
          have e2 : i - 1 + 2 = i + 1 := by omega
          have e3 : i - 1 + 3 = i + 2 := by omega
          have e4 : i - 1 + 4 = i + 3 := by omega
          rw [e1, e2, e3, e4]
          exact ⟨⟨⟨⟨⟨hprev0, h0⟩, h1⟩, h2⟩, by omega⟩, hty⟩

/-- C5 (amended): for every encoder state and bitstream, `encode` sets the
keyframe flag exactly when the NAL stream contains a unit of type 5 (IDR) or
type 7 (SPS) behind a 3-byte or 4-byte Annex-B start code.  There is no
first-frame tie-break in the code (see the counterexample theorem). -/
theorem encode_keyframe_flag_iff (st : H264EncoderState) (bitstream : List Nat) :
    (encodeStep st bitstream).1.isKeyframe = true ↔
      (HasStartCodeNal bitstream 5 ∨ HasStartCodeNal bitstream 7) := by
  show check_keyframe bitstream = true ↔ _
  unfold check_keyframe
  rw [Bool.or_eq_true, hit_iff_hasStartCodeNal, hit_iff_hasStartCodeNal]

/-- C5 counterexample: the claim adds a tie-break making the first encoded
frame (frame_count = 0) always a keyframe; the code has no such tie-break.
On the bitstream 00 00 00 01 61 (one NAL of type 1, a non-IDR slice) at frame
count 0, `encode` sets is_keyframe = false while the claim demands true. -/
theorem first_frame_no_keyframe_tiebreak :
    ¬ (∀ (st : H264EncoderState) (bitstream : List Nat),
        (encodeStep st bitstream).1.isKeyframe = true ↔
          (HasStartCodeNal bitstream 5 ∨ HasStartCodeNal bitstream 7 ∨
            st.frameCount = 0)) := by
  intro hclaim
  have h := (hclaim ⟨0⟩ [0, 0, 0, 1, 97]).mpr (Or.inr (Or.inr rfl))
  have hfalse : (encodeStep ⟨0⟩ [0, 0, 0, 1, 97]).1.isKeyframe = false := by decide
  rw [hfalse] at h
  exact Bool.false_ne_true h

/-- C6: for every BGRA channel triple with each value in 0..255, the computed
Y, U and V values equal the spec formulas (the clamp to 0..255 is the
identity because the raw values already lie in range), and in particular
every byte `bgra_to_yuv420` writes to the three planes lies in 0..255.
The `>> 8` of the i32 code is the arithmetic shift, i.e. floor division
by 256. -/
theorem yuv_channel_formulas_in_range (r g b : Int)
    (hr : 0 ≤ r ∧ r ≤ 255) (hg : 0 ≤ g ∧ g ≤ 255) (hb : 0 ≤ b ∧ b ≤ 255) :
    (clamp255 (yValRaw r g b) = yValRaw r g b ∧
      0 ≤ yValRaw r g b ∧ yValRaw r g b ≤ 255) ∧
    (clamp255 (uValRaw r g b) = uValRaw r g b ∧
      0 ≤ uValRaw r g b ∧ uValRaw r g b ≤ 255) ∧
    (clamp255 (vValRaw r g b) = vValRaw r g b ∧
      0 ≤ vValRaw r g b ∧ vValRaw r g b ≤ 255) := by
  obtain ⟨hr0, hr1⟩ := hr
  obtain ⟨hg0, hg1⟩ := hg
  obtain ⟨hb0, hb1⟩ := hb
  unfold clamp255 yValRaw uValRaw vValRaw
  rw [Int.fdiv_eq_ediv _ (by norm_num), Int.fdiv_eq_ediv _ (by norm_num),
    Int.fdiv_eq_ediv _ (by norm_num)]
  omega

theorem yuv_channel_formulas_in_range_witness :
    ((0 : Int) ≤ 255 ∧ (255 : Int) ≤ 255) ∧
    ((0 : Int) ≤ 0 ∧ (0 : Int) ≤ 255) ∧
    ((0 : Int) ≤ 0 ∧ (0 : Int) ≤ 255) ∧
    ((clamp255 (yValRaw 255 0 0) = yValRaw 255 0 0 ∧
        0 ≤ yValRaw 255 0 0 ∧ yValRaw 255 0 0 ≤ 255) ∧
      (clamp255 (uValRaw 255 0 0) = uValRaw 255 0 0 ∧
        0 ≤ uValRaw 255 0 0 ∧ uValRaw 255 0 0 ≤ 255) ∧
      (clamp255 (vValRaw 255 0 0) = vValRaw 255 0 0 ∧
        0 ≤ vValRaw 255 0 0 ∧ vValRaw 255 0 0 ≤ 255)) :=
  ⟨⟨by decide, by decide⟩, ⟨by decide, by decide⟩, ⟨by decide, by decide⟩,
    yuv_channel_formulas_in_range 255 0 0 ⟨by decide, by decide⟩
      ⟨by decide, by decide⟩ ⟨by decide, by decide⟩⟩

/-! ### Theorems: C10 -/

theorem yIdx_lt (w h y x : Nat) (hy : y < h) (hx : x < w) : y * w + x < w * h := by
  have h1 : (y + 1) * w = y * w + w := by ring
  have h2 : (y + 1) * w ≤ h * w := Nat.mul_le_mul_right w hy
  have h3 : h * w = w * h := Nat.mul_comm h w
  omega

theorem addMulInj (a q1 r1 q2 r2 : Nat) (h1 : r1 < a) (h2 : r2 < a)
    (h : q1 * a + r1 = q2 * a + r2) : q1 = q2 ∧ r1 = r2 := by
  have hq : q1 = q2 := by
    rcases Nat.lt_trichotomy q1 q2 with hlt | heq | hgt
    · exfalso
      have e1 : (q1 + 1) * a = q1 * a + a := by ring
      have e2 : (q1 + 1) * a ≤ q2 * a := Nat.mul_le_mul_right a hlt
      omega
    · exact heq
    · exfalso
      have e1 : (q2 + 1) * a = q2 * a + a := by ring
      have e2 : (q2 + 1) * a ≤ q1 * a := Nat.mul_le_mul_right a hgt
      omega
  subst hq
  omega

theorem uvIdx_lt (w h y x : Nat) (hy : y < h) (hx : x < w) (hyE : y % 2 = 0)
    (hxE : x % 2 = 0) (hw : 2 ∣ w) (hh : 2 ∣ h) :
    (y / 2) * (w / 2) + x / 2 < w * h / 4 := by
  obtain ⟨a, ha⟩ := hw
  obtain ⟨b, hb⟩ := hh
  have hx2 : x / 2 < w / 2 := by omega
  have hy2 : y / 2 < h / 2 := by omega
  have hlt : (y / 2) * (w / 2) + x / 2 < (w / 2) * (h / 2) :=
    yIdx_lt (w / 2) (h / 2) (y / 2) (x / 2) hy2 hx2
  have h4 : w * h = 4 * (w / 2 * (h / 2)) := by
    subst ha
    subst hb
    have e1 : 2 * a / 2 = a := by omega
    have e2 : 2 * b / 2 = b := by omega
    rw [e1, e2]
    ring
  omega

theorem uvIdx_inj (w y1 x1 y2 x2 : Nat) (hb1 : x1 / 2 < w / 2)
    (hb2 : x2 / 2 < w / 2) (hE1 : y1 % 2 = 0) (hE2 : x1 % 2 = 0)
    (hE3 : y2 % 2 = 0) (hE4 : x2 % 2 = 0)
    (h : (y1 / 2) * (w / 2) + x1 / 2 = (y2 / 2) * (w / 2) + x2 / 2) :
    y1 = y2 ∧ x1 = x2 := by
  obtain ⟨hq, hr⟩ :=
    addMulInj (w / 2) (y1 / 2) (x1 / 2) (y2 / 2) (x2 / 2) hb1 hb2 h
  exact ⟨by omega, by omega⟩

theorem processPixel_isSome (w h : Nat) (bgra : List Nat) (y x : Nat)
    (yuv : List Nat) : ∃ out, processPixel w h bgra y x yuv = some out := by
  simp only [processPixel]
  split
  · exact ⟨yuv, rfl⟩
  · rename_i hin
    have h0 : (y * w + x) * 4 < bgra.length := by omega
    have h1 : (y * w + x) * 4 + 1 < bgra.length := by omega
    have h2 : (y * w + x) * 4 + 2 < bgra.length := by omega
    rw [List.getElem?_eq_getElem h0, List.getElem?_eq_getElem h1,
      List.getElem?_eq_getElem h2]
    dsimp only
    split
    · exact ⟨_, rfl⟩
    · exact ⟨_, rfl⟩

theorem processPixel_preserve (w h : Nat) (bgra : List Nat) (y x j : Nat)
    (yuv out : List Nat) (hout : processPixel w h bgra y x yuv = some out)
    (hj : ¬ pixelWrites w h bgra y x j) : out[j]? = yuv[j]? := by
  simp only [processPixel] at hout
  split at hout
  · cases hout
    rfl
  · rename_i hin
    have hproc : (y * w + x) * 4 + 2 < bgra.length := by omega
    have h0 : (y * w + x) * 4 < bgra.length := by omega
    have h1 : (y * w + x) * 4 + 1 < bgra.length := by omega
    rw [List.getElem?_eq_getElem h0, List.getElem?_eq_getElem h1,
      List.getElem?_eq_getElem hproc] at hout
    dsimp only at hout
    have hyne : (y * w + x) ≠ j := fun hEq => hj ⟨hproc, Or.inl hEq.symm⟩
    split at hout
    · rename_i heven
      have hev : y % 2 = 0 ∧ x % 2 = 0 := by
        simpa [Bool.and_eq_true, Nat.beq_eq_true_eq] using heven
      cases hout
      have hune : w * h + ((y / 2) * (w / 2) + x / 2) ≠ j := fun hEq =>
        hj ⟨hproc, Or.inr ⟨hev.1, hev.2, Or.inl hEq.symm⟩⟩
      have hvne : w * h + w * h / 4 + ((y / 2) * (w / 2) + x / 2) ≠ j :=
        fun hEq => hj ⟨hproc, Or.inr ⟨hev.1, hev.2, Or.inr hEq.symm⟩⟩
      rw [List.getElem?_set_ne hvne, List.getElem?_set_ne hune,
        List.getElem?_set_ne hyne]
    · cases hout
      rw [List.getElem?_set_ne hyne]

theorem cols_fold (w h : Nat) (bgra : List Nat) (y : Nat) :
    ∀ (xs : List Nat) (yuv : List Nat),
      ∃ out,
        xs.foldlM (fun acc x => processPixel w h bgra y x acc) yuv = some out ∧
        ∀ j, (∀ x ∈ xs, ¬ pixelWrites w h bgra y x j) → out[j]? = yuv[j]? := by
  intro xs
  induction xs with
  | nil => exact fun yuv => ⟨yuv, rfl, fun j _ => rfl⟩
  | cons x xs ih =>
    intro yuv
    obtain ⟨mid, hmid⟩ := processPixel_isSome w h bgra y x yuv
    obtain ⟨out, hout, hpres⟩ := ih mid
    refine ⟨out, ?_, ?_⟩
    · rw [List.foldlM_cons, hmid]
      exact hout
    · intro j hj
      rw [hpres j (fun q hq => hj q (List.mem_cons_of_mem _ hq)),
        processPixel_preserve w h bgra y x j yuv mid hmid
          (hj x (List.mem_cons_self _ _))]

theorem rows_fold (w h : Nat) (bgra : List Nat) :
    ∀ (ys : List Nat) (yuv : List Nat),
      ∃ out,
        ys.foldlM
          (fun acc y =>
            (List.range w).foldlM (fun acc2 x => processPixel w h bgra y x acc2)
              acc) yuv = some out ∧
        ∀ j, (∀ y ∈ ys, ∀ x ∈ List.range w, ¬ pixelWrites w h bgra y x j) →
          out[j]? = yuv[j]? := by
  intro ys
  induction ys with
  | nil => exact fun yuv => ⟨yuv, rfl, fun j _ => rfl⟩
  | cons y ys ih =>
    intro yuv
    obtain ⟨mid, hmid, hmidpres⟩ := cols_fold w h bgra y (List.range w) yuv
    obtain ⟨out, hout, hpres⟩ := ih mid
    refine ⟨out, ?_, ?_⟩
    · rw [List.foldlM_cons, hmid]
      exact hout
    · intro j hj
      rw [hpres j (fun q hq x hx => hj q (List.mem_cons_of_mem _ hq) x hx),
        hmidpres j (fun x hx => hj y (List.mem_cons_self _ _) x hx)]

/-- C10 (amended): the BGRA-to-I420 conversion never reads outside the input
buffer, whatever the buffer length; a pixel is converted exactly when its
B, G and R bytes (the first three of its four) are present, so pixels missing
those bytes are skipped and their Y byte and (for even coordinates, with even
frame dimensions) their U and V bytes in the scratch buffer stay unchanged;
the alpha byte is never read.  Consequently the Frame invariant
`buffer.len ≥ width*height*4` is not needed for memory safety. -/
theorem bgra_to_yuv420_never_reads_oob (w h : Nat) (bgra yuv : List Nat) :
    (∃ out, bgra_to_yuv420 w h bgra yuv = some out) ∧
    (∀ out y x, bgra_to_yuv420 w h bgra yuv = some out → y < h → x < w →
      bgra.length ≤ (y * w + x) * 4 + 2 →
      out[y * w + x]? = yuv[y * w + x]? ∧
      (y % 2 = 0 → x % 2 = 0 → 2 ∣ w → 2 ∣ h →
        out[w * h + ((y / 2) * (w / 2) + x / 2)]? =
          yuv[w * h + ((y / 2) * (w / 2) + x / 2)]? ∧
        out[w * h + w * h / 4 + ((y / 2) * (w / 2) + x / 2)]? =
          yuv[w * h + w * h / 4 + ((y / 2) * (w / 2) + x / 2)]?)) := by
  obtain ⟨out0, hout0, hpres0⟩ := rows_fold w h bgra (List.range h) yuv
  constructor
  · exact ⟨out0, hout0⟩
  · intro out y x hout hy hx hskip
    unfold bgra_to_yuv420 at hout
    rw [hout] at hout0
    obtain rfl : out0 = out := by injection hout0 with hinj; exact hinj.symm
    constructor
    · apply hpres0
      intro y2 hy2 x2 hx2
      rw [List.mem_range] at hy2 hx2
      rintro ⟨hproc, hcases⟩
      rcases hcases with hcy | ⟨hE1, hE2, hcu | hcv⟩
      · obtain ⟨hyy, hxx⟩ :=
          addMulInj w y2 x2 y x hx2 hx (by omega)
        subst hyy
        subst hxx
        omega
      · have := yIdx_lt w h y x hy hx
        omega
      · have := yIdx_lt w h y x hy hx
        omega
    · intro hyE hxE hw2 hh2
      have hxb : x / 2 < w / 2 := by
        obtain ⟨a, ha⟩ := hw2
        omega
      constructor
      · apply hpres0
        intro y2 hy2 x2 hx2
        rw [List.mem_range] at hy2 hx2
        rintro ⟨hproc, hcases⟩
        rcases hcases with hcy | ⟨hE1, hE2, hcu | hcv⟩
        · have := yIdx_lt w h y2 x2 hy2 hx2
          omega
        · have hxb2 : x2 / 2 < w / 2 := by
            obtain ⟨a, ha⟩ := hw2
            omega
          obtain ⟨hyy, hxx⟩ :=
            uvIdx_inj w y2 x2 y x hxb2 hxb hE1 hE2 hyE hxE (by omega)
          subst hyy
          subst hxx
          omega
        · have hb1 := uvIdx_lt w h y x hy hx hyE hxE hw2 hh2
          omega
      · apply hpres0
        intro y2 hy2 x2 hx2
        rw [List.mem_range] at hy2 hx2
        rintro ⟨hproc, hcases⟩
        rcases hcases with hcy | ⟨hE1, hE2, hcu | hcv⟩
        · have := yIdx_lt w h y2 x2 hy2 hx2
          omega
        · have hb2 := uvIdx_lt w h y2 x2 hy2 hx2 hE1 hE2 hw2 hh2
          omega
        · have hxb2 : x2 / 2 < w / 2 := by
            obtain ⟨a, ha⟩ := hw2
            omega
          obtain ⟨hyy, hxx⟩ :=
            uvIdx_inj w y2 x2 y x hxb2 hxb hE1 hE2 hyE hxE (by omega)
          subst hyy
          subst hxx
          omega

theorem bgra_to_yuv420_never_reads_oob_witness :
    (∃ out, bgra_to_yuv420 2 2 [] (List.replicate 6 7) = some out) ∧
    (bgra_to_yuv420 2 2 [] (List.replicate 6 7) = some (List.replicate 6 7) ∧
      (0 : Nat) < 2 ∧ (0 : Nat) < 2 ∧
      (List.nil (α := Nat)).length ≤ (0 * 2 + 0) * 4 + 2) ∧
    ((List.replicate 6 7 : List Nat)[0 * 2 + 0]? =
        (List.replicate 6 7 : List Nat)[0 * 2 + 0]? ∧
      (0 % 2 = 0 → 0 % 2 = 0 → 2 ∣ 2 → 2 ∣ 2 →
        (List.replicate 6 7 : List Nat)[2 * 2 + ((0 / 2) * (2 / 2) + 0 / 2)]? =
          (List.replicate 6 7 : List Nat)[2 * 2 + ((0 / 2) * (2 / 2) + 0 / 2)]? ∧
        (List.replicate 6 7 : List Nat)[2 * 2 + 2 * 2 / 4 +
            ((0 / 2) * (2 / 2) + 0 / 2)]? =
          (List.replicate 6 7 : List Nat)[2 * 2 + 2 * 2 / 4 +
            ((0 / 2) * (2 / 2) + 0 / 2)]?)) :=
  ⟨(bgra_to_yuv420_never_reads_oob 2 2 [] (List.replicate 6 7)).1,
    ⟨by decide, by decide, by decide, by decide⟩,
    (bgra_to_yuv420_never_reads_oob 2 2 [] (List.replicate 6 7)).2
      (List.replicate 6 7) 0 0 (by decide) (by decide) (by decide) (by decide)⟩

/-- C10 counterexample: the claim says a pixel whose four bytes are not all
present is skipped.  With a 2 by 2 frame and a 15-byte input (one byte short
of 16), the last pixel is missing only its alpha byte, yet it is converted:
its Y byte (index 3) becomes 235 instead of staying 0.  Only the first three
bytes (B, G, R) of a pixel need to be present for it to be processed. -/
theorem pixel_missing_alpha_still_converted :
    ¬ (∀ (w h : Nat) (bgra yuv out : List Nat) (y x : Nat),
        bgra_to_yuv420 w h bgra yuv = some out → y < h → x < w →
        bgra.length < (y * w + x) * 4 + 4 →
        out[y * w + x]? = yuv[y * w + x]?) := by
  intro hclaim
  have hrun : bgra_to_yuv420 2 2 (List.replicate 15 255) (List.replicate 6 0) =
      some [235, 235, 235, 235, 128, 128] := by decide
  have h := hclaim 2 2 (List.replicate 15 255) (List.replicate 6 0)
    [235, 235, 235, 235, 128, 128] 1 1 hrun (by decide) (by decide) (by decide)
  exact absurd h (by decide)

/-! ### Theorems: C8 -/

/-- C8 (amended): the dispatcher routes every Scroll event to the separate
relative mouse device, which emits REL_WHEEL = the saturating truncation
toward zero of -dy/15 and REL_HWHEEL = the saturating truncation toward zero
of -dx/15 (not `round`), suppressing each axis whose value is zero and
emitting nothing at all when both are zero. -/
theorem scroll_dispatch_truncates (dx dy : ℚ) :
    dispatchInput (.scroll dx dy) = .scrollMouse (specScrollEvents dx dy) := by
  rw [show dispatchInput (.scroll dx dy)
      = .scrollMouse (RelativeMouse.scroll dx dy) from rfl]
  congr 1
  unfold RelativeMouse.scroll specScrollEvents
  rcases eq_or_ne (i32OfRat (-(dx / 15))) 0 with hx | hx <;>
    rcases eq_or_ne (i32OfRat (-(dy / 15))) 0 with hy | hy <;>
      simp [hx, hy]

/-- C8 counterexample: the claim computes the wheel values with `round`, the
code casts with `as i32` which truncates toward zero.  At dx = 0 and
dy = -105/4 (exactly representable in f64, quotient 7/4 computed exactly),
the code emits REL_WHEEL = 1 while round(7/4) = 2. -/
theorem scroll_round_claim_counterexample :
    ¬ (∀ dx dy : ℚ, dispatchInput (.scroll dx dy) =
        .scrollMouse (specScrollEventsRound dx dy)) := by
  intro hclaim
  have h := hclaim 0 (-(105 / 4))
  have hq : (-((-(105 / 4) : ℚ) / 15)) = 7 / 4 := by norm_num
  have hq0 : (-((0 : ℚ) / 15)) = 0 := by norm_num
  have hfloor : (⌊(7 / 4 : ℚ)⌋ : Int) = 1 := by
    rw [Int.floor_eq_iff]
    norm_num
  have htr : i32OfRat (7 / 4) = 1 := by
    unfold i32OfRat
    rw [if_pos (by norm_num), hfloor]
    decide
  have htr0 : i32OfRat 0 = 0 := by
    unfold i32OfRat
    rw [if_pos le_rfl, Int.floor_zero]
    decide
  have hround2 : round ((7 : ℚ) / 4) = 2 := by
    rw [round_eq, show ((7 : ℚ) / 4 + 1 / 2) = 9 / 4 by norm_num,
      Int.floor_eq_iff]
    norm_num
  have hround0 : round ((0 : ℚ)) = 0 := by simp
  have hcode : RelativeMouse.scroll 0 (-(105 / 4)) =
      [ScrollEv.relWheel 1, ScrollEv.syn] := by
    unfold RelativeMouse.scroll
    rw [hq, hq0, htr, htr0]
    decide
  have hspec : specScrollEventsRound 0 (-(105 / 4)) =
      [ScrollEv.relWheel 2, ScrollEv.syn] := by
    unfold specScrollEventsRound
    rw [hq, hq0, hround2, hround0]
    decide
  rw [show dispatchInput (.scroll 0 (-(105 / 4)))
      = .scrollMouse (RelativeMouse.scroll 0 (-(105 / 4))) from rfl,
    hcode, hspec] at h
  exact absurd h (by decide)

/-! ### Theorems: C7 and C9 -/

/-- C7: for every newly accepted video connection with a codec config, an
init segment and a cached keyframe segment, the handler sends, in order: the
Init text message (width, height, fps, the muxer codec string and the
base64-encoded avcC bytes), the Ready text message, the init segment as one
binary message, the cached keyframe segment as one binary message, and only
then the live subscribed segments in subscription order; hence the message at
position n+4 is exactly the n-th live segment, so the init and keyframe
segments precede every live segment the connection observes. -/
theorem video_socket_primer_before_live (st : AppState)
    (live : List StreamSegment) (c : CodecConfig) (iseg kseg : List Nat)
    (hc : st.codecConfig = some c) (hi : st.initSegment = some iseg)
    (hk : st.keyframeSegment = some kseg) :
    handleVideoSocket st live =
      [WsMessage.text (.init st.config.width st.config.height st.config.fps
          (some c.codecString) (some (base64Encode c.avccData))),
        WsMessage.text .ready, WsMessage.binary iseg, WsMessage.binary kseg] ++
        live.map (fun s => WsMessage.binary s.data) ∧
    (∀ n, (handleVideoSocket st live)[n + 4]? =
      (live.map (fun s => WsMessage.binary s.data))[n]?) := by
  have h1 : handleVideoSocket st live =
      [WsMessage.text (.init st.config.width st.config.height st.config.fps
          (some c.codecString) (some (base64Encode c.avccData))),
        WsMessage.text .ready, WsMessage.binary iseg, WsMessage.binary kseg] ++
        live.map (fun s => WsMessage.binary s.data) := by
    unfold handleVideoSocket
    rw [hc, hi, hk]
    rfl
  refine ⟨h1, fun n => ?_⟩
  rw [h1, List.getElem?_append_right (by simp)]
  simp

theorem video_socket_primer_before_live_witness :
    ((⟨⟨1920, 1080, 60⟩, some ⟨"avc1.42001f", [1, 66, 0, 31]⟩,
        some [0, 0, 0, 16], some [1, 2], true⟩ : AppState).codecConfig
      = some ⟨"avc1.42001f", [1, 66, 0, 31]⟩) ∧
    ((⟨⟨1920, 1080, 60⟩, some ⟨"avc1.42001f", [1, 66, 0, 31]⟩,
        some [0, 0, 0, 16], some [1, 2], true⟩ : AppState).initSegment
      = some [0, 0, 0, 16]) ∧
    ((⟨⟨1920, 1080, 60⟩, some ⟨"avc1.42001f", [1, 66, 0, 31]⟩,
        some [0, 0, 0, 16], some [1, 2], true⟩ : AppState).keyframeSegment
      = some [1, 2]) ∧
    (handleVideoSocket
        ⟨⟨1920, 1080, 60⟩, some ⟨"avc1.42001f", [1, 66, 0, 31]⟩,
          some [0, 0, 0, 16], some [1, 2], true⟩ [⟨[9, 9], false, true, 5⟩] =
      [WsMessage.text (.init 1920 1080 60 (some "avc1.42001f")
          (some (base64Encode [1, 66, 0, 31]))),
        WsMessage.text .ready, WsMessage.binary [0, 0, 0, 16],
        WsMessage.binary [1, 2]] ++
        ([⟨[9, 9], false, true, 5⟩] : List StreamSegment).map
          (fun s => WsMessage.binary s.data) ∧
      ∀ n, (handleVideoSocket
          ⟨⟨1920, 1080, 60⟩, some ⟨"avc1.42001f", [1, 66, 0, 31]⟩,
            some [0, 0, 0, 16], some [1, 2], true⟩
          [⟨[9, 9], false, true, 5⟩])[n + 4]? =
        (([⟨[9, 9], false, true, 5⟩] : List StreamSegment).map
          (fun s => WsMessage.binary s.data))[n]?) :=
  ⟨rfl, rfl, rfl,
    video_socket_primer_before_live
      ⟨⟨1920, 1080, 60⟩, some ⟨"avc1.42001f", [1, 66, 0, 31]⟩,
        some [0, 0, 0, 16], some [1, 2], true⟩
      [⟨[9, 9], false, true, 5⟩] ⟨"avc1.42001f", [1, 66, 0, 31]⟩
      [0, 0, 0, 16] [1, 2] rfl rfl rfl⟩

/-- C9: when authentication is disabled, both websocket upgrade handlers skip
token checking and upgrade every connection, regardless of whether a query
token or Authorization header is present and what they contain, and
`AppState::validate_token` returns true for every input. -/
theorem auth_disabled_accepts_all (st : AppState)
    (hauth : st.authRequired = false) :
    (∀ (pairingOk : String → Bool) (queryToken authHeader : Option String),
      videoWsHandler st pairingOk queryToken authHeader = .upgraded ∧
      inputWsHandler st pairingOk queryToken authHeader = .upgraded) ∧
    (∀ (pairingOk : String → Bool) (token : String),
      st.validateToken pairingOk token = true) := by
  constructor
  · intro pk qt ah
    constructor <;> simp [videoWsHandler, inputWsHandler, hauth]
  · intro pk token
    simp [AppState.validateToken, hauth]

theorem auth_disabled_accepts_all_witness :
    ((⟨⟨1920, 1080, 60⟩, none, none, none, false⟩ : AppState).authRequired
      = false) ∧
    ((∀ (pairingOk : String → Bool) (queryToken authHeader : Option String),
      videoWsHandler ⟨⟨1920, 1080, 60⟩, none, none, none, false⟩ pairingOk
          queryToken authHeader = .upgraded ∧
      inputWsHandler ⟨⟨1920, 1080, 60⟩, none, none, none, false⟩ pairingOk
          queryToken authHeader = .upgraded) ∧
    (∀ (pairingOk : String → Bool) (token : String),
      AppState.validateToken ⟨⟨1920, 1080, 60⟩, none, none, none, false⟩
        pairingOk token = true)) :=
  ⟨rfl, auth_disabled_accepts_all ⟨⟨1920, 1080, 60⟩, none, none, none, false⟩ rfl⟩

end LinGlide
